import Mathlib

/-!
# Verification of the Trading 212 exit-tax core

A shallow embedding, in Lean 4, of the domain-logic core of the
`Trading-212-Exit-Tax` repository:

* `src/t212_exit_tax/instrument_db.py` — the instrument registry
  (`InstrumentDB.normalize_isin`, `InstrumentDB.load`, `InstrumentDB.is_exit_tax`);
* `src/t212_exit_tax/exit_tax.py` — the exit-tax engine
  (`_to_float`, `_add_years`, `_parse_datetime`, `compute_exit_tax_from_positions`);
* `src/t212_exit_tax/snapshot.py` — the snapshot derivation
  (the `unrealized_pl_pct` guard of `write_snapshot_csv`).

Modelling conventions:

* Python `float` is modelled as `ℚ` (exact arithmetic; IEEE-754 rounding,
  infinities and NaN are outside the model).
* Python strings are modelled as `String` and, where character-level work is
  needed, as `List Char`.  The Python string methods used by the source
  (`strip`, `upper`, `lower`, `split`, `join`, `endswith`) are embedded on
  ASCII text; the extra Unicode whitespace and case mappings Python also
  applies do not occur in ISINs, type tags or timestamps and are not
  modelled.
* JSON values (the output of `json.loads`) are modelled by the inductive
  type `JVal`.  Python's `str()` rendering of non-string scalars is
  modelled exactly for `None` / booleans and approximately for numbers and
  containers (no claim depends on that rendering).
* Python `datetime.date` / `datetime.datetime` are modelled by `PyDate` /
  `PyDateTime` with the constructor validation of CPython (`1 ≤ year ≤ 9999`
  etc.).  `datetime.fromisoformat` (the CPython 3.10 accepted profile) is
  embedded as an executable parser.
* Exceptions are modelled by `Option` / `Except`: `none` / `.error`
  corresponds to the Python code raising.
-/

/-! ## Characters: the ASCII fragments of Python's `str` methods -/

/-- Python `str.upper()` on one character (ASCII fragment). -/
def pyUpperChar (c : Char) : Char :=
  if 97 ≤ c.toNat ∧ c.toNat ≤ 122 then Char.ofNat (c.toNat - 32) else c

/-- Python `str.lower()` on one character (ASCII fragment). -/
def pyLowerChar (c : Char) : Char :=
  if 65 ≤ c.toNat ∧ c.toNat ≤ 90 then Char.ofNat (c.toNat + 32) else c

/-- Python's whitespace test (`str.strip` / `str.split` with no argument):
space, tab, newline, carriage return, vertical tab, form feed. -/
def pyIsSpace (c : Char) : Bool :=
  c.toNat == 32 || c.toNat == 9 || c.toNat == 10 || c.toNat == 13 ||
    c.toNat == 11 || c.toNat == 12

/-- `notSpace c`: the characters kept by whitespace removal. -/
def notSpace (c : Char) : Bool := !pyIsSpace c

/-! ## Python string operations on `List Char` -/

/-- Python `str.strip()` (no argument): drop whitespace from both ends. -/
def pyStripChars (l : List Char) : List Char :=
  ((l.dropWhile pyIsSpace).reverse.dropWhile pyIsSpace).reverse

/-- Python `str.split()` (no argument): split on whitespace runs,
dropping empty chunks.  The accumulator holds the current chunk reversed. -/
def pySplitAux : List Char → List Char → List (List Char)
  | [], acc => if acc.isEmpty then [] else [acc.reverse]
  | c :: cs, acc =>
    if pyIsSpace c then
      if acc.isEmpty then pySplitAux cs [] else acc.reverse :: pySplitAux cs []
    else
      pySplitAux cs (c :: acc)

def pySplitChars (l : List Char) : List (List Char) := pySplitAux l []

/-- Python `"".join(chunks)`. -/
def pyJoinChars (chunks : List (List Char)) : List Char := chunks.foldr (· ++ ·) []

/-- Python `str.strip()` on `String`. -/
def pyStripString (s : String) : String := String.mk (pyStripChars s.data)

/-- Python `str.upper()` on `String`. -/
def pyUpperString (s : String) : String := String.mk (s.data.map pyUpperChar)

/-- Python `str.lower()` on `String`. -/
def pyLowerString (s : String) : String := String.mk (s.data.map pyLowerChar)

/-- The character-level content of `"".join(s.strip().upper().split())`
(the body of `InstrumentDB.normalize_isin`). -/
def normChars (l : List Char) : List Char :=
  pyJoinChars (pySplitChars ((pyStripChars l).map pyUpperChar))

/-! ## JSON values (the result of Python's `json.loads`) -/

/-- A JSON value.  `null` doubles as Python's `None`. -/
inductive JVal where
  | null
  | str (s : String)
  | num (q : ℚ)
  | boolean (b : Bool)
  | arr (xs : List JVal)
  | obj (kvs : List (String × JVal))

/-- Python truthiness of a JSON value (used by `or` and `if not rec`). -/
def truthy : JVal → Bool
  | .null => false
  | .str s => !s.isEmpty
  | .num q => q != 0
  | .boolean b => b
  | .arr xs => !xs.isEmpty
  | .obj kvs => !kvs.isEmpty

/-- Python `str()` of a JSON value.  Exact for strings, `None` and booleans;
the rendering of numbers and containers is approximated (no claim depends
on it: such strings only ever flow into comparisons that fail either way). -/
def pyStr : JVal → String
  | .null => "None"
  | .str s => s
  | .num q => toString q
  | .boolean true => "True"
  | .boolean false => "False"
  | .arr _ => "[...]"
  | .obj _ => "\x7b...\x7d"

/-- Python `a or b`. -/
def pyOr (a b : JVal) : JVal := if truthy a then a else b

/-- Association-list lookup.  Objects produced by `json.loads` have unique
keys (duplicate keys in the JSON text collapse, last wins, before the core
ever sees them), so first-match lookup agrees with the Python dict. -/
def dGet {α : Type} : List (String × α) → String → Option α
  | [], _ => none
  | (k, v) :: t, key => if k = key then some v else dGet t key

/-- Python `d[k] = v`: replace in place if present, else append. -/
def dSet {α : Type} : List (String × α) → String → α → List (String × α)
  | [], key, v => [(key, v)]
  | (k, w) :: t, key, v =>
    if k = key then (key, v) :: t else (k, w) :: dSet t key v

/-- The entries of a JSON object record. -/
abbrev JRec := List (String × JVal)

/-- Python `rec.get(k)` (missing key gives `None`). -/
def jGet (kvs : JRec) (k : String) : JVal := (dGet kvs k).getD .null

/-- Python `rec.get(k, d)`. -/
def jGetD (kvs : JRec) (k : String) (d : JVal) : JVal := (dGet kvs k).getD d

/-! ## `instrument_db.py`: `InstrumentDB` -/

/-- `InstrumentDB.normalize_isin`:
`"" if isin is None else "".join(str(isin).strip().upper().split())`. -/
def normalize_isin : JVal → String
  | .null => ""
  | v => String.mk (normChars (pyStr v).data)

/-- Shape A record coercion: `v if isinstance(v, dict) else {"TYPE": v}`. -/
def recOfA (v : JVal) : JRec :=
  match v with
  | .obj kvs => kvs
  | v => [("TYPE", v)]

/-- Shape A loop of `InstrumentDB.load`: iterate `data.items()`, skip keys
whose normalization is empty, store (last write wins). -/
def loadA : List (String × JVal) → List (String × JRec) → List (String × JRec)
  | [], acc => acc
  | (k, v) :: t, acc =>
    let norm := normalize_isin (.str k)
    if norm = "" then loadA t acc else loadA t (dSet acc norm (recOfA v))

/-- First key of `rec` whose `str(key).lower()` is `"isin"`, and its value
(`None` when there is none) — the Shape B identifier probe. -/
def findIsin : JRec → Option JVal
  | [] => none
  | (k, v) :: t => if pyLowerString k = "isin" then some v else findIsin t

/-- Shape B loop of `InstrumentDB.load`: skip non-dict records, resolve the
`isin`-named key, skip empty normalizations, store the whole record. -/
def loadB : List JVal → List (String × JRec) → List (String × JRec)
  | [], acc => acc
  | rec :: t, acc =>
    match rec with
    | .obj kvs =>
      let norm :=
        match findIsin kvs with
        | none => ""
        | some v => normalize_isin v
      if norm = "" then loadB t acc else loadB t (dSet acc norm kvs)
    | _ => loadB t acc

/-- The registry: `InstrumentDB._by_isin`. -/
structure InstrumentDB where
  by_isin : List (String × JRec)

/-- `InstrumentDB.load` on already-parsed JSON.  A top-level dict is Shape A,
a top-level list Shape B, anything else raises `ValueError` (the spec's
`DataFormatError`). -/
def InstrumentDB.load (data : JVal) : Except String InstrumentDB :=
  match data with
  | .obj kvs => .ok ⟨loadA kvs []⟩
  | .arr xs => .ok ⟨loadB xs []⟩
  | _ => .error "Instrument DB JSON must be a dict keyed by ISIN or a list of records with an 'isin' field."

/-- The type tag the source computes:
`str(rec.get("TYPE") or rec.get("type") or "").upper().strip()`. -/
def tagOf (rec : JRec) : String :=
  pyStripString (pyUpperString (pyStr (pyOr (jGet rec "TYPE") (pyOr (jGet rec "type") (.str "")))))

/-- `InstrumentDB.is_exit_tax`. -/
def InstrumentDB.is_exit_tax (db : InstrumentDB) (isin : String) : Bool :=
  let norm := normalize_isin (.str isin)
  if norm = "" then false
  else
    match dGet db.by_isin norm with
    | none => false
    | some rec =>
      if rec.isEmpty then false
      else
        let t := tagOf rec
        t == "ETF" || t == "INDEX"

/-- The identifier keys of a registry. -/
def dbKeys (db : InstrumentDB) : List String := db.by_isin.map Prod.fst

/-- A Shape A source encoding a list of (identifier, type) pairs, with the
bare-type-string form of values. -/
def shapeASource (pairs : List (String × String)) : JVal :=
  .obj (pairs.map fun pr => (pr.1, JVal.str pr.2))

/-- A Shape B source encoding a list of (identifier, type) pairs. -/
def shapeBSource (pairs : List (String × String)) : JVal :=
  .arr (pairs.map fun pr => .obj [("isin", JVal.str pr.1), ("type", JVal.str pr.2)])

/-! ## `datetime.date`: validation, `replace`, `_add_years` -/

/-- The proleptic Gregorian leap-year rule used by `datetime.date`. -/
def isLeapYear (y : ℕ) : Bool := y % 4 == 0 && (y % 100 != 0 || y % 400 == 0)

def daysInMonth (y m : ℕ) : ℕ :=
  if m = 2 then (if isLeapYear y then 29 else 28)
  else if m = 4 ∨ m = 6 ∨ m = 9 ∨ m = 11 then 30
  else 31

structure PyDate where
  year : ℕ
  month : ℕ
  day : ℕ
  deriving DecidableEq

/-- `datetime.date`'s constructor validation (`MINYEAR = 1`, `MAXYEAR = 9999`). -/
def validDate (y m d : ℕ) : Bool :=
  decide (1 ≤ y) && decide (y ≤ 9999) && decide (1 ≤ m) && decide (m ≤ 12) &&
    decide (1 ≤ d) && decide (d ≤ daysInMonth y m)

/-- `date(y, m, d)` / `date.replace`: `none` models the `ValueError`. -/
def mkDate (y m d : ℕ) : Option PyDate :=
  if validDate y m d then some ⟨y, m, d⟩ else none

/-- `_add_years`: try `d.replace(year=d.year + years)`; on `ValueError`,
`d.replace(month=2, day=28, year=d.year + years)`.  `none` models the second
`replace` also raising (the `ValueError` propagates out of `_add_years`). -/
def addYears (d : PyDate) (years : ℕ) : Option PyDate :=
  match mkDate (d.year + years) d.month d.day with
  | some r => some r
  | none => mkDate (d.year + years) 2 28

/-! ## `datetime.fromisoformat` (CPython 3.10) and `_parse_datetime` -/

structure PyDateTime where
  date : PyDate
  hour : ℕ
  minute : ℕ
  second : ℕ
  microsecond : ℕ
  /-- UTC offset in microseconds; `none` for a naive datetime. -/
  tzOffsetMicros : Option ℤ
  deriving DecidableEq

def digitVal (c : Char) : ℕ := c.toNat - 48

/-- Two decimal digits (one `int(tstr[pos:pos+2])` step; the laxity of
Python's `int()` towards signs and inner whitespace is not modelled). -/
def parse2 : List Char → Option (ℕ × List Char)
  | a :: b :: rest =>
    if a.isDigit && b.isDigit then some (digitVal a * 10 + digitVal b, rest) else none
  | _ => none

def natOfDigits (l : List Char) : ℕ := l.foldl (fun acc c => acc * 10 + digitVal c) 0

/-- `_parse_isoformat_date`: exactly `YYYY-MM-DD`. -/
def parseIsoDate : List Char → Option (ℕ × ℕ × ℕ)
  | [y1, y2, y3, y4, s1, m1, m2, s2, d1, d2] =>
    if y1.isDigit && y2.isDigit && y3.isDigit && y4.isDigit && s1 == '-' &&
        m1.isDigit && m2.isDigit && s2 == '-' && d1.isDigit && d2.isDigit then
      some (natOfDigits [y1, y2, y3, y4], natOfDigits [m1, m2], natOfDigits [d1, d2])
    else none
  | _ => none

/-- `_parse_hh_mm_ss_ff`: `HH[:MM[:SS[.fff or .ffffff]]]`. -/
def parseHMSF (l : List Char) : Option (ℕ × ℕ × ℕ × ℕ) :=
  match parse2 l with
  | none => none
  | some (h, r1) =>
    match r1 with
    | [] => some (h, 0, 0, 0)
    | ':' :: r2 =>
      match parse2 r2 with
      | none => none
      | some (m, r3) =>
        match r3 with
        | [] => some (h, m, 0, 0)
        | ':' :: r4 =>
          match parse2 r4 with
          | none => none
          | some (s, r5) =>
            match r5 with
            | [] => some (h, m, s, 0)
            | '.' :: fr =>
              if fr.all Char.isDigit && fr.length == 3 then
                some (h, m, s, natOfDigits fr * 1000)
              else if fr.all Char.isDigit && fr.length == 6 then
                some (h, m, s, natOfDigits fr)
              else none
            | _ => none
        | _ => none
    | _ => none

/-- `_parse_isoformat_time`: the time part, split at the first `-` (else the
first `+`) into clock and UTC offset; the offset string must have length 5,
8 or 15, and `timezone()` requires its magnitude strictly below 24 hours
(an all-zero offset is UTC without that check). -/
def parseIsoTime (l : List Char) : Option ((ℕ × ℕ × ℕ × ℕ) × Option ℤ) :=
  let tzIdx :=
    match l.findIdx? (· == '-') with
    | some i => some i
    | none => l.findIdx? (· == '+')
  match tzIdx with
  | none =>
    match parseHMSF l with
    | none => none
    | some c => some (c, none)
  | some i =>
    match parseHMSF (l.take i) with
    | none => none
    | some c =>
      let tz := l.drop (i + 1)
      if tz.length == 5 || tz.length == 8 || tz.length == 15 then
        match parseHMSF tz with
        | none => none
        | some (th, tm, ts, tf) =>
          if th == 0 && tm == 0 && ts == 0 && tf == 0 then some (c, some 0)
          else
            let total : ℤ := ((th * 3600 + tm * 60 + ts) * 1000000 + tf : ℕ)
            if total < 86400000000 then
              some (c, some (if l.getD i ' ' == '-' then -total else total))
            else none
      else none

/-- The `datetime` constructor validation applied to parsed components. -/
def mkDateTime (y mo da h mi se f : ℕ) (tz : Option ℤ) : Option PyDateTime :=
  if validDate y mo da = true ∧ h ≤ 23 ∧ mi ≤ 59 ∧ se ≤ 59 ∧ f ≤ 999999 then
    some ⟨⟨y, mo, da⟩, h, mi, se, f, tz⟩
  else none

/-- `datetime.fromisoformat` (3.10): ten date characters, an arbitrary
separator character at index 10, then the time (a bare date is midnight;
a string of length 11 fails, as in the C accelerator that actually runs). -/
def pyFromIsoformat (s : String) : Option PyDateTime :=
  let cs := s.data
  match parseIsoDate (cs.take 10) with
  | none => none
  | some (y, mo, da) =>
    if cs.length == 10 then mkDateTime y mo da 0 0 0 0 none
    else
      match parseIsoTime (cs.drop 11) with
      | none => none
      | some ((h, mi, se, f), tz) => mkDateTime y mo da h mi se f tz

/-- Python `s.endswith("Z")`. -/
def pyEndsWithZ (s : String) : Bool :=
  match s.data.getLast? with
  | some c => c == 'Z'
  | none => false

/-- `_parse_datetime`: strip, rewrite a trailing `"Z"` to `"+00:00"`
(`s[:-1] + "+00:00"`), then `datetime.fromisoformat`. -/
def parse_datetime (s : String) : Option PyDateTime :=
  let t := pyStripString s
  let t2 := if pyEndsWithZ t then String.mk (t.data.dropLast ++ "+00:00".data) else t
  pyFromIsoformat t2

/-! ## `exit_tax.py`: the engine -/

/-- Python `float(string)`: a decimal literal, with surrounding whitespace
allowed (exponents, `inf`/`nan` and digit underscores are not modelled). -/
def parseDecimal (l : List Char) : Option ℚ :=
  let l1 := pyStripChars l
  let sgn : ℚ := match l1 with | '-' :: _ => -1 | _ => 1
  let l2 := match l1 with | '-' :: t => t | '+' :: t => t | t => t
  let ip := l2.takeWhile Char.isDigit
  let rest := l2.dropWhile Char.isDigit
  match rest with
  | [] => if ip.isEmpty then none else some (sgn * natOfDigits ip)
  | '.' :: fp =>
    if fp.all Char.isDigit ∧ ¬(ip.isEmpty ∧ fp.isEmpty) then
      some (sgn * ((natOfDigits ip : ℚ) + (natOfDigits fp : ℚ) / (10 ^ fp.length)))
    else none
  | _ => none

/-- Python `float(x)` on a JSON value: numbers and booleans convert,
strings are parsed as decimal literals, everything else raises. -/
def pyFloat : JVal → Option ℚ
  | .num q => some q
  | .boolean b => some (if b then 1 else 0)
  | .str s => parseDecimal s.data
  | _ => none

/-- `_to_float(x, default)`: `float(x)`, or `default` on any exception. -/
def to_float (x : JVal) (default : ℚ) : ℚ := (pyFloat x).getD default

/-- Python `max(a, b)` on numbers (the first argument wins ties). -/
def pyMax (a b : ℚ) : ℚ := if a < b then b else a

/-- A raw position object.  The spec's RawPosition shape: the three fields
the engine reads; a position whose `instrument`/`walletImpact` is a truthy
non-object crashes the Python line `inst.get(...)` and is outside the model. -/
structure RawPos where
  instrument : Option JVal
  walletImpact : Option JVal
  createdAt : Option JVal

/-- `p.get(key, {}) or {}`: absent or falsy gives the empty object. -/
def asObj (v : Option JVal) : JRec :=
  match v with
  | some (.obj kvs) => kvs
  | _ => []

structure ExitTaxRow where
  ticker : String
  isin : String
  name : String
  currency : String
  created_at : PyDateTime
  deemed_disposal_date : PyDate
  total_cost : ℚ
  current_value : ℚ
  unrealised_pl : ℚ
  taxable_gain_today : ℚ
  exit_tax_due_today : ℚ
  deriving DecidableEq

/-- The two `ValueError`s that can escape the per-position loop. -/
inductive CompErr where
  | invalidIso (s : String)
  | yearOutOfRange
  deriving DecidableEq

/-- `str(p.get("createdAt", "")).strip()`. -/
def createdRaw (p : RawPos) : String :=
  pyStripString (pyStr (p.createdAt.getD (.str "")))

/-- One iteration of the loop of `compute_exit_tax_from_positions`.
`now` is the ambient `datetime.now()` used when `createdAt` is empty. -/
def computeRow (now : PyDateTime) (rate : ℚ) (p : RawPos) : Except CompErr ExitTaxRow :=
  let inst := asObj p.instrument
  let wi := asObj p.walletImpact
  let ticker := pyStr (jGetD inst "ticker" (.str ""))
  let isin := pyStr (jGetD inst "isin" (.str ""))
  let name := pyStr (jGetD inst "name" (.str ""))
  let currency := pyStr (pyOr (jGet wi "currency") (pyOr (jGet inst "currency") (.str "")))
  let raw := createdRaw p
  match (if raw = "" then some now else parse_datetime raw) with
  | none => .error (.invalidIso raw)
  | some created_at =>
    match addYears created_at.date 8 with
    | none => .error .yearOutOfRange
    | some deemed =>
      let total_cost := to_float (jGet wi "totalCost") 0
      let current_value := to_float (jGet wi "currentValue") 0
      let unrealised_pl := to_float (jGet wi "unrealizedProfitLoss") (current_value - total_cost)
      let taxable_gain_today := pyMax (current_value - total_cost) 0
      .ok ⟨ticker, isin, name, currency, created_at, deemed, total_cost, current_value,
        unrealised_pl, taxable_gain_today, taxable_gain_today * rate⟩

/-- `compute_exit_tax_from_positions` over already-parsed position objects:
one row per position, the first raised error aborting the batch. -/
def compute_exit_tax_from_positions (now : PyDateTime) (rate : ℚ) :
    List RawPos → Except CompErr (List ExitTaxRow)
  | [] => .ok []
  | p :: ps =>
    match computeRow now rate p with
    | .error e => .error e
    | .ok r =>
      match compute_exit_tax_from_positions now rate ps with
      | .error e => .error e
      | .ok rs => .ok (r :: rs)

/-! ## `snapshot.py`: the percentage guard -/

structure SnapshotRow where
  ticker : String
  isin : String
  name : String
  currency : String
  quantity : ℚ
  avg_price_paid : Option ℚ
  current_price : Option ℚ
  total_cost : Option ℚ
  current_value : Option ℚ
  unrealized_pl : Option ℚ

/-- The `pl_pct` computation of `write_snapshot_csv`:
`None`, unless `r.total_cost not in (None, 0.0) and r.unrealized_pl is not None`,
in which case `r.unrealized_pl / r.total_cost`. -/
def unrealized_pl_pct (r : SnapshotRow) : Option ℚ :=
  match r.total_cost, r.unrealized_pl with
  | some tc, some pl => if tc = 0 then none else some (pl / tc)
  | _, _ => none

/-- Decidable equality for `Except` (used to evaluate concrete runs). -/
def Except.decEq {e a : Type} [DecidableEq e] [DecidableEq a] :
    (x y : Except e a) → Decidable (x = y)
  | .ok u, .ok v =>
    if h : u = v then .isTrue (by rw [h]) else .isFalse (by intro hc; cases hc; exact h rfl)
  | .ok _, .error _ => .isFalse (fun hc => Except.noConfusion hc)
  | .error _, .ok _ => .isFalse (fun hc => Except.noConfusion hc)
  | .error u, .error v =>
    if h : u = v then .isTrue (by rw [h]) else .isFalse (by intro hc; cases hc; exact h rfl)

instance {e a : Type} [DecidableEq e] [DecidableEq a] : DecidableEq (Except e a) :=
  Except.decEq

/-! ## Concrete sample inputs used by witnesses -/

/-- A fixed stand-in for `datetime.now()` in concrete witnesses. -/
def sampleNow : PyDateTime := ⟨⟨2026, 10, 12⟩, 0, 0, 0, 0, none⟩

/-- A typical ETF position (the spec's end-to-end scenario). -/
def samplePosition : RawPos :=
  ⟨some (.obj [("ticker", .str "VWCE"), ("isin", .str "IE00BK5BQT80"),
      ("name", .str "Vanguard FTSE All-World"), ("currency", .str "EUR")]),
    some (.obj [("currency", .str "EUR"), ("totalCost", .num 1000),
      ("currentValue", .num 1500), ("unrealizedProfitLoss", .num 500)]),
    some (.str "2020-05-11T17:55:09.000Z")⟩

/-- A position with a malformed timestamp. -/
def badPosition : RawPos := ⟨none, none, some (.str "not-a-date")⟩

/-- Positions whose timestamps parse (they are inside the accepted ISO-8601
profile) but whose deemed-disposal year overflows `MAXYEAR`. -/
def overflowPositionA : RawPos := ⟨none, none, some (.str "9992-03-01T00:00:00Z")⟩

def overflowPositionB : RawPos := ⟨none, none, some (.str "9995-06-15T12:00:00Z")⟩

/-! ## Theorems: characters and normalization -/

/-- `(Char.ofNat n).toNat = n` for small codepoints. -/
theorem toNat_ofNat_small {n : Nat} (h : n < 128) : (Char.ofNat n).toNat = n := by
  have hv : n < 55296 ∨ 57343 < n ∧ n < 1114112 := Or.inl (by omega)
  simp only [Char.ofNat, dif_pos hv]
  simp [Char.ofNatAux, Char.toNat, UInt32.toNat]

theorem pyUpperChar_idem (c : Char) : pyUpperChar (pyUpperChar c) = pyUpperChar c := by
  unfold pyUpperChar
  split
  · rename_i h
    have h2 : (Char.ofNat (c.toNat - 32)).toNat = c.toNat - 32 := toNat_ofNat_small (by omega)
    rw [if_neg]
    omega
  · rfl

theorem pyIsSpace_pyUpperChar (c : Char) : pyIsSpace (pyUpperChar c) = pyIsSpace c := by
  unfold pyUpperChar pyIsSpace
  split
  · rename_i h
    have h2 : (Char.ofNat (c.toNat - 32)).toNat = c.toNat - 32 := toNat_ofNat_small (by omega)
    rw [h2, Bool.eq_iff_iff]
    simp only [Bool.or_eq_true, beq_iff_eq]
    omega
  · rfl

theorem pySplitAux_join (l : List Char) :
    ∀ acc, pyJoinChars (pySplitAux l acc) = acc.reverse ++ l.filter notSpace := by
  induction l with
  | nil =>
    intro acc
    by_cases h : acc.isEmpty
    · simp [pySplitAux, h, pyJoinChars, List.isEmpty_iff.mp h]
    · simp [pySplitAux, h, pyJoinChars]
  | cons c cs ih =>
    intro acc
    by_cases hc : pyIsSpace c
    · by_cases h : acc.isEmpty
      · simp [pySplitAux, hc, h, ih, List.isEmpty_iff.mp h, List.filter, notSpace, hc]
      · simp only [pySplitAux, if_pos hc, if_neg h]
        simp [pyJoinChars] at ih ⊢
        rw [ih]
        simp [List.filter, notSpace, hc, pyJoinChars]
    · simp only [pySplitAux, if_neg hc]
      rw [ih]
      simp [List.filter, notSpace, hc]

theorem pyJoin_pySplit (l : List Char) :
    pyJoinChars (pySplitChars l) = l.filter notSpace := by
  simpa using pySplitAux_join l []

theorem filter_notSpace_dropWhile (l : List Char) :
    (l.dropWhile pyIsSpace).filter notSpace = l.filter notSpace := by
  induction l with
  | nil => rfl
  | cons c cs ih =>
    by_cases hc : pyIsSpace c
    · simp [List.dropWhile, hc, ih, List.filter, notSpace]
    · simp [List.dropWhile, hc]

theorem filter_notSpace_pyStrip (l : List Char) :
    (pyStripChars l).filter notSpace = l.filter notSpace := by
  unfold pyStripChars
  rw [List.filter_reverse, filter_notSpace_dropWhile, List.filter_reverse,
    List.reverse_reverse, filter_notSpace_dropWhile]

theorem filter_notSpace_map_upper (l : List Char) :
    (l.map pyUpperChar).filter notSpace = (l.filter notSpace).map pyUpperChar := by
  induction l with
  | nil => rfl
  | cons c cs ih =>
    by_cases hc : pyIsSpace c
    · simp [List.filter, notSpace, hc, pyIsSpace_pyUpperChar, ih]
    · simp [List.filter, notSpace, hc, pyIsSpace_pyUpperChar, ih]

theorem normChars_eq_filter_map (l : List Char) :
    normChars l = (l.map pyUpperChar).filter notSpace := by
  unfold normChars
  rw [pyJoin_pySplit, filter_notSpace_map_upper, filter_notSpace_pyStrip,
    ← filter_notSpace_map_upper]

theorem normChars_idem (l : List Char) : normChars (normChars l) = normChars l := by
  rw [normChars_eq_filter_map, normChars_eq_filter_map, filter_notSpace_map_upper l,
    List.map_map]
  have hmap : (l.filter notSpace).map (pyUpperChar ∘ pyUpperChar)
      = (l.filter notSpace).map pyUpperChar :=
    List.map_congr_left fun c _ => pyUpperChar_idem c
  rw [hmap, filter_notSpace_map_upper (l.filter notSpace), List.filter_filter]
  simp

/-- Normalization output is a fixed point of normalization, for any input value. -/
theorem normalize_isin_norm (v : JVal) :
    normalize_isin (.str (normalize_isin v)) = normalize_isin v := by
  cases v with
  | null => rfl
  | str s => exact congrArg String.mk (normChars_idem s.data)
  | num q => exact congrArg String.mk (normChars_idem _)
  | boolean b => exact congrArg String.mk (normChars_idem _)
  | arr xs => exact congrArg String.mk (normChars_idem _)
  | obj kvs => exact congrArg String.mk (normChars_idem _)

/-- C8: the identifier normalization (`InstrumentDB.normalize_isin`) is a
total function; it is idempotent on every string; it upper-cases and removes
all whitespace (character-level characterization); and it returns the empty
string on `None` and on the empty string. -/
theorem c8_normalize_isin_total_idempotent (x : String) :
    normalize_isin (.str (normalize_isin (.str x))) = normalize_isin (.str x)
    ∧ normalize_isin .null = ""
    ∧ normalize_isin (.str "") = ""
    ∧ (normalize_isin (.str x)).data = (x.data.map pyUpperChar).filter notSpace :=
  ⟨normalize_isin_norm (.str x), rfl, rfl, normChars_eq_filter_map x.data⟩

/-! ## Theorems: dates and `_add_years` -/

theorem validDate_true_iff (y m d : ℕ) :
    validDate y m d = true ↔
      1 ≤ y ∧ y ≤ 9999 ∧ 1 ≤ m ∧ m ≤ 12 ∧ 1 ≤ d ∧ d ≤ daysInMonth y m := by
  simp [validDate, and_assoc]

theorem daysInMonth_ge_28 (y m : ℕ) : 28 ≤ daysInMonth y m := by
  unfold daysInMonth
  split
  · split <;> omega
  · split <;> omega

theorem daysInMonth_ne_two {m : ℕ} (h : m ≠ 2) (y y' : ℕ) :
    daysInMonth y m = daysInMonth y' m := by
  simp [daysInMonth, h]

/-- C1 counterexample: 9995-03-01 is a valid source date, yet `_add_years`
raises on it (`date.replace(year=10003)` and the fallback `replace` both
exceed `MAXYEAR`), so the deemed-disposal computation is not total on valid
source dates. -/
theorem c1_add_years_counterexample :
    validDate 9995 3 1 = true ∧ addYears ⟨9995, 3, 1⟩ 8 = none := by
  exact ⟨by decide, by decide⟩

/-- `_add_years(d, 8)` on an in-range valid date: advance the year by 8,
clamping 29 February to 28 February when the target year is not leap. -/
theorem addYears_eight_spec (d : PyDate) (hv : validDate d.year d.month d.day = true)
    (hy : d.year + 8 ≤ 9999) :
    addYears d 8 = some
      (if d.month = 2 ∧ d.day = 29 ∧ isLeapYear (d.year + 8) = false
       then ⟨d.year + 8, 2, 28⟩ else ⟨d.year + 8, d.month, d.day⟩) := by
  rw [validDate_true_iff] at hv
  obtain ⟨h1, h2, h3, h4, h5, h6⟩ := hv
  unfold addYears mkDate
  by_cases hc : d.month = 2 ∧ d.day = 29 ∧ isLeapYear (d.year + 8) = false
  · obtain ⟨hm, hd, hl⟩ := hc
    have hfail : validDate (d.year + 8) d.month d.day = false := by
      rw [Bool.eq_false_iff]
      intro hcontra
      rw [validDate_true_iff] at hcontra
      have := hcontra.2.2.2.2.2
      rw [hm, hd] at this
      simp [daysInMonth, hl] at this
    have hok : validDate (d.year + 8) 2 28 = true := by
      rw [validDate_true_iff]
      refine ⟨by omega, hy, by omega, by omega, by omega, ?_⟩
      have := daysInMonth_ge_28 (d.year + 8) 2
      omega
    rw [hfail]
    simp only [Bool.false_eq_true, if_false, hok, if_true,
      if_pos (⟨hm, hd, hl⟩ : d.month = 2 ∧ d.day = 29 ∧ isLeapYear (d.year + 8) = false)]
  · have hok : validDate (d.year + 8) d.month d.day = true := by
      rw [validDate_true_iff]
      refine ⟨by omega, hy, h3, h4, h5, ?_⟩
      by_cases hm : d.month = 2
      · rw [hm] at h6 hc ⊢
        have hub : d.day ≤ 29 := by
          have h7 := h6
          simp [daysInMonth] at h7
          split at h7 <;> omega
        by_cases hl : isLeapYear (d.year + 8) = false
        · have hd : d.day ≠ 29 := fun hd => hc ⟨rfl, hd, hl⟩
          simp [daysInMonth, hl]
          omega
        · rw [Bool.not_eq_false] at hl
          simp [daysInMonth, hl]
          omega
      · rw [daysInMonth_ne_two hm (d.year + 8) d.year]
        exact h6
    rw [hok]
    simp only [if_true, if_neg hc]

/-- C1 (amended): for every parsed position the stored deemed-disposal date
is `_add_years(created_at.date(), 8)`; and for every valid source date
whose year + 8 still fits `datetime`'s year range (at most 9999),
`_add_years(d, 8)` does not raise and advances the year by 8, except that
29 February maps to 28 February of a non-leap target year. -/
theorem c1_deemed_disposal_rule :
    (∀ d : PyDate, validDate d.year d.month d.day = true → d.year + 8 ≤ 9999 →
      addYears d 8 = some
        (if d.month = 2 ∧ d.day = 29 ∧ isLeapYear (d.year + 8) = false
         then ⟨d.year + 8, 2, 28⟩ else ⟨d.year + 8, d.month, d.day⟩))
    ∧ (∀ (now : PyDateTime) (rate : ℚ) (p : RawPos) (row : ExitTaxRow),
        computeRow now rate p = .ok row →
        addYears row.created_at.date 8 = some row.deemed_disposal_date) := by
  constructor
  · exact addYears_eight_spec
  · intro now rate p row h
    unfold computeRow at h
    simp only [] at h
    split at h
    · exact Except.noConfusion h
    · rename_i created hca
      split at h
      · exact Except.noConfusion h
      · rename_i deemed hdeemed
        cases h
        exact hdeemed

/-- C1 witness: 2092-02-29 is a valid leap date whose +8 target year 2100 is
not a leap year, so the clamp to 28 February fires; and the engine stores
exactly the `_add_years` result for a computed row. -/
theorem c1_deemed_disposal_rule_witness :
    (validDate 2092 2 29 = true ∧ 2092 + 8 ≤ 9999
      ∧ addYears ⟨2092, 2, 29⟩ 8 = some ⟨2100, 2, 28⟩)
    ∧ addYears (⟨2020, 5, 11⟩ : PyDate) 8 = some ⟨2028, 5, 11⟩ := by
  constructor
  · exact ⟨by decide, by decide,
      (c1_deemed_disposal_rule.1 ⟨2092, 2, 29⟩ (by decide) (by decide)).trans (by decide)⟩
  · have hrow : computeRow sampleNow (38/100) samplePosition
        = .ok ⟨"VWCE", "IE00BK5BQT80", "Vanguard FTSE All-World", "EUR",
            ⟨⟨2020, 5, 11⟩, 17, 55, 9, 0, some 0⟩, ⟨2028, 5, 11⟩,
            1000, 1500, 500, pyMax ((1500 : ℚ) - 1000) 0,
            pyMax ((1500 : ℚ) - 1000) 0 * (38/100)⟩ := rfl
    exact c1_deemed_disposal_rule.2 sampleNow (38/100) samplePosition _ hrow

/-- `_add_years(d, 8)` succeeds whenever the target year is in range,
whatever the source date. -/
theorem addYears_eight_isSome (d : PyDate) (hy : d.year + 8 ≤ 9999) :
    (addYears d 8).isSome = true := by
  unfold addYears
  cases hm : mkDate (d.year + 8) d.month d.day with
  | some r => simp
  | none =>
    simp only
    unfold mkDate
    rw [if_pos]
    · simp
    · rw [validDate_true_iff]
      refine ⟨by omega, hy, by omega, by omega, by omega, ?_⟩
      have := daysInMonth_ge_28 (d.year + 8) 2
      omega

/-! ## Theorems: the exit-tax engine -/

theorem pyMax_eq_max (a b : ℚ) : pyMax a b = max a b := by
  unfold pyMax
  rcases lt_or_le a b with h | h
  · rw [if_pos h, max_eq_right h.le]
  · rw [if_neg (not_lt.mpr h), max_eq_left h]

/-- C2: for every position, any rate (no range validation or clamping: the
rate is universally quantified over all of `ℚ`), and any `now`, a computed
row satisfies `taxable_gain_today = max(current_value - total_cost, 0)`
(hence is never negative) and
`exit_tax_due_today = taxable_gain_today * exit_tax_rate`. -/
theorem c2_gain_formula (now : PyDateTime) (rate : ℚ) (p : RawPos) (row : ExitTaxRow)
    (h : computeRow now rate p = .ok row) :
    row.taxable_gain_today = max (row.current_value - row.total_cost) 0
    ∧ 0 ≤ row.taxable_gain_today
    ∧ row.exit_tax_due_today = row.taxable_gain_today * rate := by
  unfold computeRow at h
  simp only [] at h
  split at h
  · exact Except.noConfusion h
  · split at h
    · exact Except.noConfusion h
    · cases h
      refine ⟨pyMax_eq_max _ _, ?_, rfl⟩
      rw [pyMax_eq_max]
      exact le_max_right _ _

theorem except_isOk_iff {e a : Type} (x : Except e a) :
    x.isOk = true ↔ ∃ v, x = .ok v := by
  cases x <;> simp [Except.isOk, Except.toBool]

/-- A per-position success condition phrased in the claim's terms: the
timestamp is empty, or parses with a deemed-disposal year inside `MAXYEAR`. -/
theorem computeRow_isOk (now : PyDateTime) (rate : ℚ) (p : RawPos)
    (hnow : now.date.year + 8 ≤ 9999)
    (hp : createdRaw p = "" ∨
      ∃ dt, parse_datetime (createdRaw p) = some dt ∧ dt.date.year + 8 ≤ 9999) :
    (computeRow now rate p).isOk = true := by
  unfold computeRow
  simp only []
  have hca : ∃ ca : PyDateTime,
      (if createdRaw p = "" then some now else parse_datetime (createdRaw p)) = some ca
      ∧ ca.date.year + 8 ≤ 9999 := by
    rcases hp with hp | ⟨dt, hdt, hy⟩
    · exact ⟨now, by rw [if_pos hp], hnow⟩
    · refine ⟨dt, ?_, hy⟩
      by_cases hraw : createdRaw p = ""
      · rw [hraw] at hdt
        exact absurd ((by decide : parse_datetime "" = none).symm.trans hdt) (by simp)
      · rw [if_neg hraw]
        exact hdt
  obtain ⟨ca, hca, hy⟩ := hca
  rw [hca]
  have hs := addYears_eight_isSome ca.date hy
  cases ha : addYears ca.date 8 with
  | none => rw [ha] at hs; simp at hs
  | some d => simp only [ha, Except.isOk, Except.toBool]

/-- The per-position failure on a malformed (non-empty, unparseable)
timestamp: the row computation raises with the offending string. -/
theorem computeRow_error_bad_timestamp (now : PyDateTime) (rate : ℚ) (p : RawPos)
    (hraw : createdRaw p ≠ "") (hparse : parse_datetime (createdRaw p) = none) :
    computeRow now rate p = .error (.invalidIso (createdRaw p)) := by
  unfold computeRow
  simp only []
  rw [if_neg hraw, hparse]

/-- Batch success under the per-position success condition. -/
theorem compute_batch_isOk (now : PyDateTime) (rate : ℚ) :
    ∀ ps : List RawPos, now.date.year + 8 ≤ 9999 →
      (∀ p ∈ ps, createdRaw p = "" ∨
        ∃ dt, parse_datetime (createdRaw p) = some dt ∧ dt.date.year + 8 ≤ 9999) →
      (compute_exit_tax_from_positions now rate ps).isOk = true := by
  intro ps
  induction ps with
  | nil => intro _ _; rfl
  | cons p t ih =>
    intro hnow hok
    have hp := computeRow_isOk now rate p hnow (hok p (by simp))
    rw [except_isOk_iff] at hp
    obtain ⟨row, hrow⟩ := hp
    have ht := ih hnow fun q hq => hok q (by simp [hq])
    rw [except_isOk_iff] at ht
    obtain ⟨rows, hrows⟩ := ht
    unfold compute_exit_tax_from_positions
    rw [hrow, hrows]
    rfl

/-- Whenever the batch succeeds, it yields one row per position, in input
order, row `i` computed from position `i`. -/
theorem compute_batch_pointwise (now : PyDateTime) (rate : ℚ) :
    ∀ (ps : List RawPos) (rows : List ExitTaxRow),
      compute_exit_tax_from_positions now rate ps = .ok rows →
      rows.length = ps.length
      ∧ ∀ i (hi : i < ps.length) (hr : i < rows.length),
          computeRow now rate (ps.get ⟨i, hi⟩) = .ok (rows.get ⟨i, hr⟩) := by
  intro ps
  induction ps with
  | nil =>
    intro rows h
    unfold compute_exit_tax_from_positions at h
    cases h
    exact ⟨rfl, fun i hi => absurd hi (by simp)⟩
  | cons p t ih =>
    intro rows h
    unfold compute_exit_tax_from_positions at h
    cases hrow : computeRow now rate p with
    | error e => rw [hrow] at h; exact Except.noConfusion h
    | ok r =>
      rw [hrow] at h
      cases hrows : compute_exit_tax_from_positions now rate t with
      | error e => rw [hrows] at h; exact Except.noConfusion h
      | ok rs =>
        rw [hrows] at h
        cases h
        obtain ⟨hlen, hpt⟩ := ih rs hrows
        refine ⟨by simp [hlen], ?_⟩
        intro i hi hr
        cases i with
        | zero => simpa using hrow
        | succ j =>
          have hj : j < t.length := by simpa using hi
          have hjr : j < rs.length := by simpa using hr
          simpa using hpt j hj hjr

/-- Batch failure at the first position with a malformed timestamp, when all
positions before it succeed. -/
theorem compute_batch_error_at (now : PyDateTime) (rate : ℚ) :
    ∀ (l1 : List RawPos) (p : RawPos) (l2 : List RawPos),
      now.date.year + 8 ≤ 9999 →
      (∀ q ∈ l1, createdRaw q = "" ∨
        ∃ dt, parse_datetime (createdRaw q) = some dt ∧ dt.date.year + 8 ≤ 9999) →
      createdRaw p ≠ "" → parse_datetime (createdRaw p) = none →
      compute_exit_tax_from_positions now rate (l1 ++ p :: l2)
        = .error (.invalidIso (createdRaw p)) := by
  intro l1
  induction l1 with
  | nil =>
    intro p l2 _ _ hraw hparse
    have hp := computeRow_error_bad_timestamp now rate p hraw hparse
    rw [List.nil_append]
    unfold compute_exit_tax_from_positions
    rw [hp]
  | cons q t ih =>
    intro p l2 hnow hok hraw hparse
    have hq := computeRow_isOk now rate q hnow (hok q (by simp))
    rw [except_isOk_iff] at hq
    obtain ⟨row, hrow⟩ := hq
    have ht := ih p l2 hnow (fun r hr => hok r (by simp [hr])) hraw hparse
    rw [List.cons_append]
    unfold compute_exit_tax_from_positions
    rw [hrow, ht]

/-- C2 witness: the spec's end-to-end scenario (cost 1000, value 1500,
rate 0.38), with the row's rational fields left as the engine's unevaluated
expressions (`Rat` arithmetic is `@[irreducible]` upstream). -/
theorem c2_gain_formula_witness :
    computeRow sampleNow (38/100) samplePosition
      = .ok ⟨"VWCE", "IE00BK5BQT80", "Vanguard FTSE All-World", "EUR",
          ⟨⟨2020, 5, 11⟩, 17, 55, 9, 0, some 0⟩, ⟨2028, 5, 11⟩,
          1000, 1500, 500, pyMax ((1500 : ℚ) - 1000) 0,
          pyMax ((1500 : ℚ) - 1000) 0 * (38/100)⟩
    ∧ pyMax ((1500 : ℚ) - 1000) 0 = max ((1500 : ℚ) - 1000) 0
    ∧ (0 : ℚ) ≤ pyMax ((1500 : ℚ) - 1000) 0 := by
  have hrow : computeRow sampleNow (38/100) samplePosition
      = .ok ⟨"VWCE", "IE00BK5BQT80", "Vanguard FTSE All-World", "EUR",
          ⟨⟨2020, 5, 11⟩, 17, 55, 9, 0, some 0⟩, ⟨2028, 5, 11⟩,
          1000, 1500, 500, pyMax ((1500 : ℚ) - 1000) 0,
          pyMax ((1500 : ℚ) - 1000) 0 * (38/100)⟩ := rfl
  have h := c2_gain_formula sampleNow (38/100) samplePosition _ hrow
  exact ⟨hrow, h.1, h.2.1⟩

/-- C3 counterexample: "9992-03-01T00:00:00Z" lies inside the accepted
ISO-8601 profile (it parses), yet the batch computation fails — with a
year-overflow `ValueError`, not a timestamp error — so "createdAt empty or
in the profile implies the batch succeeds" is false as stated. -/
theorem c3_counterexample :
    parse_datetime "9992-03-01T00:00:00Z" = some ⟨⟨9992, 3, 1⟩, 0, 0, 0, 0, some 0⟩
    ∧ compute_exit_tax_from_positions sampleNow (38/100) [overflowPositionA]
        = .error .yearOutOfRange
    ∧ (compute_exit_tax_from_positions sampleNow (38/100) [overflowPositionA]).isOk
        = false := by
  exact ⟨by decide, by decide, by decide⟩

/-- C3 (amended): provided every parsed creation date (and the current date,
used as the empty-timestamp fallback) has year + 8 within `MAXYEAR`:
if each position's `createdAt` is empty or lies in the accepted ISO-8601
profile, the batch computation succeeds; and if some position's `createdAt`
is non-empty and outside the profile while every position before it
satisfies the success condition, the whole batch fails with a
`DataFormatError` (the `ValueError` of `fromisoformat`) carrying the
offending position's timestamp, and no partial row sequence is returned. -/
theorem c3_batch_error_handling (now : PyDateTime) (rate : ℚ) (ps : List RawPos)
    (hnow : now.date.year + 8 ≤ 9999) :
    ((∀ p ∈ ps, createdRaw p = "" ∨
        ∃ dt, parse_datetime (createdRaw p) = some dt ∧ dt.date.year + 8 ≤ 9999) →
      (compute_exit_tax_from_positions now rate ps).isOk = true)
    ∧ (∀ (l1 : List RawPos) (p : RawPos) (l2 : List RawPos), ps = l1 ++ p :: l2 →
        (∀ q ∈ l1, createdRaw q = "" ∨
          ∃ dt, parse_datetime (createdRaw q) = some dt ∧ dt.date.year + 8 ≤ 9999) →
        createdRaw p ≠ "" → parse_datetime (createdRaw p) = none →
        compute_exit_tax_from_positions now rate ps
          = .error (.invalidIso (createdRaw p))) := by
  constructor
  · exact fun hok => compute_batch_isOk now rate ps hnow hok
  · intro l1 p l2 hps hpre hraw hparse
    rw [hps]
    exact compute_batch_error_at now rate l1 p l2 hnow hpre hraw hparse

/-- C3 witness: a good position followed by a malformed one aborts the whole
batch with the offending timestamp. -/
theorem c3_batch_error_handling_witness :
    compute_exit_tax_from_positions sampleNow (38/100) [samplePosition, badPosition]
      = .error (.invalidIso "not-a-date") := by
  have h := (c3_batch_error_handling sampleNow (38/100) [samplePosition, badPosition]
      (by decide)).2 [samplePosition] badPosition [] rfl ?pre (by decide) (by decide)
  · rw [(by decide : createdRaw badPosition = "not-a-date")] at h
    exact h
  case pre =>
    intro q hq
    rw [List.mem_singleton] at hq
    subst hq
    exact Or.inr ⟨⟨⟨2020, 5, 11⟩, 17, 55, 9, 0, some 0⟩, by decide, by decide⟩

/-- C6 counterexample: a well-formed input (its only timestamp parses), for
which the engine does not return one record per position — it aborts with a
year-overflow `ValueError`. -/
theorem c6_counterexample :
    parse_datetime "9995-06-15T12:00:00Z" = some ⟨⟨9995, 6, 15⟩, 12, 0, 0, 0, some 0⟩
    ∧ compute_exit_tax_from_positions sampleNow (38/100) [overflowPositionB]
        = .error .yearOutOfRange
    ∧ (compute_exit_tax_from_positions sampleNow (38/100) [overflowPositionB]).isOk
        = false := by
  exact ⟨by decide, by decide, by decide⟩

/-- C6 (amended): for every well-formed positions input (all timestamps
parseable or empty) whose parsed creation dates — and the current date, when
the empty-timestamp fallback is used — have year + 8 within `MAXYEAR`, the
computation succeeds and returns exactly one `ExitTaxRecord` per input
position, in input order (row `i` is computed from position `i`), with no
filtering by classification (the registry is not an input of the engine). -/
theorem c6_one_record_per_position (now : PyDateTime) (rate : ℚ) (ps : List RawPos)
    (hnow : now.date.year + 8 ≤ 9999)
    (hok : ∀ p ∈ ps, createdRaw p = "" ∨
      ∃ dt, parse_datetime (createdRaw p) = some dt ∧ dt.date.year + 8 ≤ 9999) :
    (compute_exit_tax_from_positions now rate ps).isOk = true
    ∧ ∀ rows, compute_exit_tax_from_positions now rate ps = .ok rows →
        rows.length = ps.length
        ∧ ∀ i (hi : i < ps.length) (hr : i < rows.length),
            computeRow now rate (ps.get ⟨i, hi⟩) = .ok (rows.get ⟨i, hr⟩) :=
  ⟨compute_batch_isOk now rate ps hnow hok,
    fun rows h => compute_batch_pointwise now rate ps rows h⟩

/-- C6 witness: a two-position batch yields exactly its two rows, in order. -/
theorem c6_one_record_per_position_witness :
    (compute_exit_tax_from_positions sampleNow (38/100)
        [samplePosition, samplePosition]).isOk = true := by
  have h := c6_one_record_per_position sampleNow (38/100)
      [samplePosition, samplePosition] (by decide) ?hok
  · exact h.1
  case hok =>
    intro p hp
    have : p = samplePosition := by
      rcases List.mem_cons.mp hp with h1 | h1
      · exact h1
      · exact List.mem_singleton.mp h1
    subst this
    exact Or.inr ⟨⟨⟨2020, 5, 11⟩, 17, 55, 9, 0, some 0⟩, by decide, by decide⟩

/-! ## Theorems: the instrument registry -/

theorem dGet_some_mem {α : Type} :
    ∀ (l : List (String × α)) (k : String) (v : α),
      dGet l k = some v → k ∈ l.map Prod.fst := by
  intro l
  induction l with
  | nil => intro k v h; exact Option.noConfusion h
  | cons a t ih =>
    intro k v h
    obtain ⟨a1, a2⟩ := a
    unfold dGet at h
    by_cases ha : a1 = k
    · simp [ha]
    · rw [if_neg ha] at h
      simp [ih k v h]

theorem mem_keys_dSet {α : Type} :
    ∀ (l : List (String × α)) (k : String) (v : α) (k' : String),
      k' ∈ ((dSet l k v).map Prod.fst) → k' = k ∨ k' ∈ l.map Prod.fst := by
  intro l
  induction l with
  | nil =>
    intro k v k' h
    unfold dSet at h
    simp only [List.map_cons, List.map_nil, List.mem_singleton] at h
    exact Or.inl h
  | cons a t ih =>
    intro k v k' h
    obtain ⟨a1, a2⟩ := a
    unfold dSet at h
    by_cases ha : a1 = k
    · rw [if_pos ha] at h
      rcases List.mem_cons.mp h with h1 | h1
      · exact Or.inl h1
      · exact Or.inr (by simp [List.mem_map] at h1 ⊢; tauto)
    · rw [if_neg ha] at h
      rcases List.mem_cons.mp h with h1 | h1
      · exact Or.inr (by simp [h1])
      · rcases ih k v k' h1 with h2 | h2
        · exact Or.inl h2
        · exact Or.inr (by simp [h2])

theorem loadA_keys_good :
    ∀ (t : List (String × JVal)) (acc : List (String × JRec)),
      (∀ k ∈ acc.map Prod.fst, k ≠ "" ∧ normalize_isin (.str k) = k) →
      ∀ k ∈ (loadA t acc).map Prod.fst, k ≠ "" ∧ normalize_isin (.str k) = k := by
  intro t
  induction t with
  | nil => exact fun acc hacc => hacc
  | cons a t2 ih =>
    intro acc hacc k hk
    obtain ⟨a1, a2⟩ := a
    unfold loadA at hk
    simp only [] at hk
    by_cases hn : normalize_isin (.str a1) = ""
    · rw [if_pos hn] at hk
      exact ih acc hacc k hk
    · rw [if_neg hn] at hk
      refine ih _ ?_ k hk
      intro k2 hk2
      rcases mem_keys_dSet _ _ _ _ hk2 with h | h
      · subst h
        exact ⟨hn, normalize_isin_norm (.str a1)⟩
      · exact hacc k2 h

theorem loadB_keys_good :
    ∀ (t : List JVal) (acc : List (String × JRec)),
      (∀ k ∈ acc.map Prod.fst, k ≠ "" ∧ normalize_isin (.str k) = k) →
      ∀ k ∈ (loadB t acc).map Prod.fst, k ≠ "" ∧ normalize_isin (.str k) = k := by
  intro t
  induction t with
  | nil => exact fun acc hacc => hacc
  | cons rec t2 ih =>
    intro acc hacc k hk
    cases rec with
    | obj kvs =>
      unfold loadB at hk
      simp only [] at hk
      cases hfind : findIsin kvs with
      | none =>
        rw [hfind] at hk
        rw [if_pos rfl] at hk
        exact ih acc hacc k hk
      | some v =>
        rw [hfind] at hk
        by_cases hn : normalize_isin v = ""
        · rw [if_pos hn] at hk
          exact ih acc hacc k hk
        · rw [if_neg hn] at hk
          refine ih _ ?_ k hk
          intro k2 hk2
          rcases mem_keys_dSet _ _ _ _ hk2 with h | h
          · subst h
            exact ⟨hn, normalize_isin_norm v⟩
          · exact hacc k2 h
    | null => exact ih acc hacc k hk
    | str s => exact ih acc hacc k hk
    | num q => exact ih acc hacc k hk
    | boolean b => exact ih acc hacc k hk
    | arr xs => exact ih acc hacc k hk

theorem load_keys_good (data : JVal) (db : InstrumentDB)
    (h : InstrumentDB.load data = .ok db) :
    ∀ k ∈ dbKeys db, k ≠ "" ∧ normalize_isin (.str k) = k := by
  cases data with
  | obj kvs =>
    cases h
    exact loadA_keys_good kvs [] (by simp)
  | arr xs =>
    cases h
    exact loadB_keys_good xs [] (by simp)
  | null => exact Except.noConfusion h
  | str s => exact Except.noConfusion h
  | num q => exact Except.noConfusion h
  | boolean b => exact Except.noConfusion h

/-- C10: every identifier key stored by `InstrumentDB.load` — under either
accepted shape — is non-empty and a fixed point of `normalize_isin`, so
every successful lookup goes through a normalized key. -/
theorem c10_keys_normalized_fixed_points (data : JVal) (db : InstrumentDB)
    (h : InstrumentDB.load data = .ok db) :
    ∀ k ∈ dbKeys db, k ≠ "" ∧ normalize_isin (.str k) = k :=
  load_keys_good data db h

/-- C10 witness: a Shape A source with a messy key stores the normalized,
non-empty fixed point `"IE00B3"`. -/
theorem c10_keys_normalized_fixed_points_witness :
    InstrumentDB.load (.obj [("ie00  b3", .str "ETF")])
      = .ok ⟨[("IE00B3", [("TYPE", .str "ETF")])]⟩
    ∧ ("IE00B3" ≠ "" ∧ normalize_isin (.str "IE00B3") = "IE00B3") := by
  have hload : InstrumentDB.load (.obj [("ie00  b3", .str "ETF")])
      = .ok ⟨[("IE00B3", [("TYPE", .str "ETF")])]⟩ := rfl
  exact ⟨hload,
    c10_keys_normalized_fixed_points _ _ hload "IE00B3" (by decide)⟩

/-- C5: registry load fails iff the top-level JSON value is neither an
object (Shape A) nor an array (Shape B); within an accepted shape, a record
without a resolvable non-empty normalized identifier — an empty-normalizing
Shape A key, a non-object Shape B record, or a Shape B record whose `isin`
probe normalizes to the empty string — is silently skipped and never makes
the load fail. -/
theorem c5_load_shape_validation (data : JVal) :
    ((InstrumentDB.load data).isOk = true ↔
      (∃ kvs, data = .obj kvs) ∨ (∃ xs, data = .arr xs))
    ∧ (∀ (k : String) (v : JVal) (t : List (String × JVal)) (acc : List (String × JRec)),
        normalize_isin (.str k) = "" → loadA ((k, v) :: t) acc = loadA t acc)
    ∧ (∀ (rec : JVal) (t : List JVal) (acc : List (String × JRec)),
        (∀ kvs, rec ≠ .obj kvs) → loadB (rec :: t) acc = loadB t acc)
    ∧ (∀ (kvs : JRec) (t : List JVal) (acc : List (String × JRec)),
        (match findIsin kvs with | none => "" | some v => normalize_isin v) = "" →
        loadB (.obj kvs :: t) acc = loadB t acc) := by
  refine ⟨?_, ?_, ?_, ?_⟩
  · cases data <;> simp [InstrumentDB.load, Except.isOk, Except.toBool]
  · intro k v t acc hn
    simp only [loadA]
    rw [if_pos hn]
  · intro rec t acc hrec
    cases rec with
    | obj kvs => exact absurd rfl (hrec kvs)
    | null => rfl
    | str s => rfl
    | num q => rfl
    | boolean b => rfl
    | arr xs => rfl
  · intro kvs t acc hn
    simp only [loadB]
    rw [if_pos hn]

/-- C5 witness: a non-container source is rejected; droppable records
(whitespace-only Shape A key, non-dict Shape B record, Shape B record with
no `isin` key) are skipped without failing. -/
theorem c5_load_shape_validation_witness :
    ((InstrumentDB.load (.num 3)).isOk = true ↔
      (∃ kvs, JVal.num 3 = .obj kvs) ∨ (∃ xs, JVal.num 3 = .arr xs))
    ∧ loadA [("  ", JVal.str "ETF"), ("GB00", JVal.str "EQUITY")] []
        = loadA [("GB00", JVal.str "EQUITY")] []
    ∧ loadB [JVal.num 7] [] = loadB [] []
    ∧ loadB [JVal.obj [("foo", JVal.str "bar")]] [] = loadB [] [] := by
  refine ⟨(c5_load_shape_validation (.num 3)).1,
    (c5_load_shape_validation (.num 3)).2.1 "  " (JVal.str "ETF")
      [("GB00", JVal.str "EQUITY")] [] (by decide),
    (c5_load_shape_validation (.num 3)).2.2.1 (JVal.num 7) [] []
      (fun kvs h => JVal.noConfusion h),
    (c5_load_shape_validation (.num 3)).2.2.2 [("foo", JVal.str "bar")] [] [] rfl⟩

/-- C4 counterexample: a registry whose stored type tag is `"ETF "` (with a
trailing space).  Case-folding alone leaves `"ETF "`, which is not exactly
`"ETF"` or `"INDEX"`, so the claim says the identifier is not eligible —
but `is_exit_tax` also strips whitespace from the tag and returns `true`. -/
theorem c4_counterexample :
    Except.map (fun db => db.is_exit_tax "X")
        (InstrumentDB.load (.obj [("X", .obj [("TYPE", .str "ETF ")])])) = .ok true
    ∧ pyUpperString "ETF " = "ETF " ∧ pyLowerString "ETF " = "etf "
    ∧ ("ETF " : String) ≠ "ETF" ∧ ("ETF " : String) ≠ "INDEX"
    ∧ ("etf " : String) ≠ "etf" ∧ ("etf " : String) ≠ "index" := by
  exact ⟨by decide, by decide, by decide, by decide, by decide, by decide, by decide⟩

/-- C4 (amended): for every loaded registry and every identifier string,
`is_exit_tax` is true iff the normalized identifier (case- and
whitespace-insensitive lookup) is present and the stored type tag,
case-folded **and stripped of surrounding whitespace** (`tagOf`, the
source's `.upper().strip()`), equals `"ETF"` or `"INDEX"`; any other tag
(including empty) and any unregistered identifier yields `false` — the
function is total, so no error is possible. -/
theorem c4_is_exit_tax_characterization (data : JVal) (db : InstrumentDB)
    (hload : InstrumentDB.load data = .ok db) (q : String) :
    db.is_exit_tax q = true ↔
      ∃ rec, dGet db.by_isin (normalize_isin (.str q)) = some rec
        ∧ (tagOf rec = "ETF" ∨ tagOf rec = "INDEX") := by
  unfold InstrumentDB.is_exit_tax
  simp only []
  by_cases hn : normalize_isin (.str q) = ""
  · rw [if_pos hn]
    simp only [Bool.false_eq_true, false_iff]
    rintro ⟨rec, hget, -⟩
    have hmem := dGet_some_mem _ _ _ hget
    rw [hn] at hmem
    exact (load_keys_good data db hload "" hmem).1 rfl
  · rw [if_neg hn]
    cases hget : dGet db.by_isin (normalize_isin (.str q)) with
    | none =>
      simp only [Bool.false_eq_true, false_iff]
      rintro ⟨rec, hrec, -⟩
      exact Option.noConfusion hrec
    | some rec =>
      simp only []
      by_cases hemp : rec.isEmpty
      · have hnil : rec = [] := List.isEmpty_iff.mp hemp
        subst hnil
        rw [if_pos hemp]
        simp only [Bool.false_eq_true, false_iff]
        rintro ⟨rec2, hrec2, htag⟩
        cases hrec2
        rcases htag with h | h <;> exact absurd h (by decide)
      · rw [if_neg (by simpa using hemp)]
        constructor
        · intro h
          have h' : tagOf rec = "ETF" ∨ tagOf rec = "INDEX" := by simpa using h
          exact ⟨rec, rfl, h'⟩
        · rintro ⟨rec2, hrec2, htag⟩
          cases hrec2
          rcases htag with h1 | h1 <;> simp [h1]

/-- C4 witness: lookup is case- and whitespace-insensitive on the
identifier, and an exact (case-folded) tag `"ETF"` is eligible. -/
theorem c4_is_exit_tax_characterization_witness :
    InstrumentDB.load (.obj [("X", .obj [("TYPE", .str "ETF")])])
      = .ok ⟨[("X", [("TYPE", .str "ETF")])]⟩
    ∧ (InstrumentDB.mk [("X", [("TYPE", .str "ETF")])]).is_exit_tax " x " = true := by
  have hload : InstrumentDB.load (.obj [("X", .obj [("TYPE", .str "ETF")])])
      = .ok ⟨[("X", [("TYPE", .str "ETF")])]⟩ := rfl
  refine ⟨hload, ?_⟩
  exact (c4_is_exit_tax_characterization _ _ hload " x ").mpr
    ⟨[("TYPE", .str "ETF")], rfl, Or.inl (by decide)⟩

/-- The tag computed from a Shape A bare-string record equals the tag
computed from the corresponding Shape B record. -/
theorem tagOf_shapeA_eq_shapeB (i t : String) :
    tagOf [("TYPE", JVal.str t)] = tagOf [("isin", JVal.str i), ("type", JVal.str t)] := by
  by_cases ht : t = ""
  · subst ht
    rfl
  · have hemp : t.isEmpty = false := by
      rw [Bool.eq_false_iff]
      intro hc
      exact ht ((String.isEmpty_iff t).mp hc)
    unfold tagOf jGet pyOr truthy
    simp only [dGet, if_pos rfl, if_neg (by decide : ¬("isin" : String) = "TYPE"),
      if_neg (by decide : ¬("type" : String) = "TYPE")]
    simp [hemp]

/-- `dSet` with the same key and tag-equivalent values preserves the
pointwise relation between two registries. -/
theorem dSet_forall2 {la lb : List (String × JRec)}
    (h : List.Forall₂
      (fun a b => a.1 = b.1 ∧ tagOf a.2 = tagOf b.2 ∧ a.2.isEmpty = b.2.isEmpty) la lb)
    (k : String) {va vb : JRec} (hv : tagOf va = tagOf vb)
    (he : va.isEmpty = vb.isEmpty) :
    List.Forall₂
      (fun a b => a.1 = b.1 ∧ tagOf a.2 = tagOf b.2 ∧ a.2.isEmpty = b.2.isEmpty)
      (dSet la k va) (dSet lb k vb) := by
  induction h with
  | nil => exact List.Forall₂.cons ⟨rfl, hv, he⟩ List.Forall₂.nil
  | cons hab hrest ih =>
    rename_i a b t1 t2
    obtain ⟨a1, a2⟩ := a
    obtain ⟨b1, b2⟩ := b
    obtain ⟨h1, h2, h3⟩ := hab
    simp only at h1
    subst h1
    unfold dSet
    by_cases hk : a1 = k
    · rw [if_pos hk, if_pos hk]
      exact List.Forall₂.cons ⟨rfl, hv, he⟩ hrest
    · rw [if_neg hk, if_neg hk]
      exact List.Forall₂.cons ⟨rfl, h2, h3⟩ ih

/-- Lookup in pointwise-related registries yields both-nothing or
tag-equivalent records. -/
theorem dGet_forall2 {la lb : List (String × JRec)}
    (h : List.Forall₂
      (fun a b => a.1 = b.1 ∧ tagOf a.2 = tagOf b.2 ∧ a.2.isEmpty = b.2.isEmpty) la lb)
    (k : String) :
    (dGet la k = none ∧ dGet lb k = none) ∨
      ∃ ra rb, dGet la k = some ra ∧ dGet lb k = some rb
        ∧ tagOf ra = tagOf rb ∧ ra.isEmpty = rb.isEmpty := by
  induction h with
  | nil => exact Or.inl ⟨rfl, rfl⟩
  | cons hab hrest ih =>
    rename_i a b t1 t2
    obtain ⟨a1, a2⟩ := a
    obtain ⟨b1, b2⟩ := b
    obtain ⟨h1, h2, h3⟩ := hab
    simp only at h1
    subst h1
    unfold dGet
    by_cases hk : a1 = k
    · rw [if_pos hk, if_pos hk]
      exact Or.inr ⟨a2, b2, rfl, rfl, h2, h3⟩
    · rw [if_neg hk, if_neg hk]
      exact ih

/-- Pointwise-related registries classify every identifier identically. -/
theorem is_exit_tax_forall2 (dbA dbB : InstrumentDB)
    (h : List.Forall₂
      (fun a b => a.1 = b.1 ∧ tagOf a.2 = tagOf b.2 ∧ a.2.isEmpty = b.2.isEmpty)
      dbA.by_isin dbB.by_isin) (q : String) :
    dbA.is_exit_tax q = dbB.is_exit_tax q := by
  unfold InstrumentDB.is_exit_tax
  simp only []
  by_cases hn : normalize_isin (.str q) = ""
  · rw [if_pos hn, if_pos hn]
  · rw [if_neg hn, if_neg hn]
    rcases dGet_forall2 h (normalize_isin (.str q)) with ⟨h1, h2⟩ | ⟨ra, rb, h1, h2, h3, h4⟩
    · rw [h1, h2]
    · rw [h1, h2]
      simp only [h3, h4]

/-- Loading the Shape A and Shape B encodings of the same pair sequence
produces pointwise-related registries. -/
theorem load_shapes_forall2 :
    ∀ (pairs : List (String × String)) (accA accB : List (String × JRec)),
      List.Forall₂
        (fun a b => a.1 = b.1 ∧ tagOf a.2 = tagOf b.2 ∧ a.2.isEmpty = b.2.isEmpty)
        accA accB →
      List.Forall₂
        (fun a b => a.1 = b.1 ∧ tagOf a.2 = tagOf b.2 ∧ a.2.isEmpty = b.2.isEmpty)
        (loadA (pairs.map fun pr => (pr.1, JVal.str pr.2)) accA)
        (loadB (pairs.map fun pr =>
          .obj [("isin", JVal.str pr.1), ("type", JVal.str pr.2)]) accB) := by
  intro pairs
  induction pairs with
  | nil => exact fun _ _ h => h
  | cons pr t ih =>
    intro accA accB h
    obtain ⟨i, ty⟩ := pr
    simp only [List.map_cons, loadA, loadB]
    have hfind : findIsin [("isin", JVal.str i), ("type", JVal.str ty)]
        = some (JVal.str i) := rfl
    rw [hfind]
    by_cases hn : normalize_isin (JVal.str i) = ""
    · rw [if_pos hn, if_pos hn]
      exact ih _ _ h
    · rw [if_neg hn, if_neg hn]
      exact ih _ _ (dSet_forall2 h _ (tagOf_shapeA_eq_shapeB i ty) rfl)

/-- C7 counterexample: two sources encoding the same **set** of
(identifier, type) pairs — in different orders, with two identifiers
sharing a normalized form — classify `"x"` differently, because the last
record for a normalized key wins. -/
theorem c7_counterexample :
    ([("x", "ETF"), ("X ", "EQUITY")] : List (String × String)).toFinset
        = ([("X ", "EQUITY"), ("x", "ETF")] : List (String × String)).toFinset
    ∧ Except.map (fun db => db.is_exit_tax "x")
        (InstrumentDB.load (shapeASource [("x", "ETF"), ("X ", "EQUITY")])) = .ok false
    ∧ Except.map (fun db => db.is_exit_tax "x")
        (InstrumentDB.load (shapeBSource [("X ", "EQUITY"), ("x", "ETF")])) = .ok true := by
  exact ⟨by decide, by decide, by decide⟩

/-- C7 (amended): for a registry built from a Shape A source and one built
from a Shape B source encoding the same **sequence** of (identifier, type)
pairs — same pairs in the same order; when no two identifiers share a
normalized form this is the same as encoding the same set —
`is_exit_tax` returns identical results for every identifier string. -/
theorem c7_shape_round_trip (pairs : List (String × String)) (q : String) :
    Except.map (fun db => db.is_exit_tax q) (InstrumentDB.load (shapeASource pairs))
      = Except.map (fun db => db.is_exit_tax q) (InstrumentDB.load (shapeBSource pairs)) := by
  unfold shapeASource shapeBSource InstrumentDB.load
  simp only [Except.map]
  exact congrArg Except.ok
    (is_exit_tax_forall2 ⟨_⟩ ⟨_⟩ (load_shapes_forall2 pairs [] [] List.Forall₂.nil) q)

/-! ## Theorems: the snapshot derivation -/

/-- C9: the derived `unrealized_pl_pct` equals `unrealized_pl / total_cost`
exactly when both operands are present and `total_cost` is non-zero, and is
absent otherwise (in particular whenever `total_cost` is 0 or either
operand is absent) — the division is always guarded. -/
theorem c9_unrealized_pl_pct_guard (r : SnapshotRow) :
    (∀ tc pl : ℚ, r.total_cost = some tc → tc ≠ 0 → r.unrealized_pl = some pl →
      unrealized_pl_pct r = some (pl / tc))
    ∧ (r.total_cost = none ∨ r.total_cost = some 0 ∨ r.unrealized_pl = none →
      unrealized_pl_pct r = none) := by
  constructor
  · intro tc pl htc hz hpl
    unfold unrealized_pl_pct
    rw [htc, hpl]
    simp [hz]
  · intro h
    unfold unrealized_pl_pct
    rcases h with h | h | h
    · rw [h]
    · rw [h]
      cases r.unrealized_pl <;> simp
    · rw [h]
      cases r.total_cost <;> simp

/-- C9 witness: cost 200 with P/L 50 yields the ratio; cost 0 yields
nothing even though P/L is present. -/
theorem c9_unrealized_pl_pct_guard_witness :
    unrealized_pl_pct ⟨"", "", "", "", 0, none, none, some 200, none, some 50⟩
      = some ((50 : ℚ) / 200)
    ∧ unrealized_pl_pct ⟨"", "", "", "", 0, none, none, some 0, none, some 50⟩
      = none := by
  refine ⟨(c9_unrealized_pl_pct_guard _).1 200 50 rfl (by decide) rfl, ?_⟩
  exact (c9_unrealized_pl_pct_guard _).2 (Or.inr (Or.inl rfl))
